import Mathlib

/-!
Verification of the DailyTracker activity aggregation and summarization core.

The TypeScript source is shallowly embedded:
* clock times are the `HH:MM` strings the code manipulates (split on a colon,
  each part read as a decimal number, rendered back with `padStart(2, '0')`);
* calendar dates are day indices (integers counting days, day 0 being a
  Thursday, matching the Unix epoch), so `Date.getDay()` becomes arithmetic
  modulo 7 and `setDate` offsets become integer addition;
* JavaScript numbers are `Nat`/`Int` where the code only meets integers, and
  `Rat` where the code divides before rounding (`Math.round(x)` is modeled
  exactly as `⌊x + 1/2⌋`, which agrees with JavaScript on halves, rounding
  toward positive infinity);
* a JavaScript `Map` is an association list in insertion order: `set` updates
  an existing key in place and appends a fresh key at the end, matching the
  observable first-seen iteration order of `Map`.
-/

/-- Model of `Number(s)` from JavaScript restricted to decimal digit strings
(the only strings the parsing call sites feed it): the usual left fold over
the digits.  Character code 48 is `'0'`. -/
def jsNumber (s : String) : Nat :=
  s.data.foldl (fun n c => n * 10 + (c.toNat - 48)) 0

/-- Model of `s.padStart(2, '0')`: pad on the left with `'0'` up to length 2. -/
def padStart2 (s : String) : String :=
  if s.length ≥ 2 then s else if s.length = 1 then "0" ++ s else "00"

/-- Model of `s.split(':')` from JavaScript. -/
def splitColon (s : String) : List String :=
  (s.data.splitOn ':').map (fun cs => String.mk cs)

/-- The composite `Number(s.split(':')[i])` used by the time arithmetic in
`client/src/lib/utils.ts` (there via array destructuring of
`split(':').map(Number)`); an out-of-range index is read as the empty string,
which `jsNumber` sends to 0 (only well-formed `HH:MM` inputs are in contract). -/
def getPart (s : String) (i : Nat) : Nat :=
  jsNumber ((splitColon s).getD i "")

/-- Model of JavaScript `Math.round` on the exact rational value:
`⌊q + 1/2⌋`, rounding halves toward positive infinity as `Math.round` does. -/
def jsRound (q : ℚ) : ℤ := ⌊q + 1/2⌋

/-- Canonical rendering of a clock time: `padStart(2,'0')` of both components
around a colon, exactly how the source renders times (`calculateEndTime`,
`getCurrentTime`).  A well-formed `HH:MM` string is `timeString h m` with
`h < 24` and `m < 60`. -/
def timeString (h m : Int) : String :=
  padStart2 (toString h) ++ ":" ++ padStart2 (toString m)

/-- `formatMinutes` from `client/src/lib/utils.ts`: hours are
`Math.floor(minutes / 60)`, minutes the remainder; when `hours === 0` only the
minute part is rendered. -/
def formatMinutes (minutes : Nat) : String :=
  let hours := minutes / 60
  let mins := minutes % 60
  if hours = 0 then toString mins ++ "m"
  else toString hours ++ "h " ++ toString mins ++ "m"

/-- `timeDifferenceInMinutes` from `client/src/lib/utils.ts`: parse both
`HH:MM` strings, subtract in minutes, and add a full day (1440) when the raw
difference is negative (overnight span). -/
def timeDifferenceInMinutes (startTime endTime : String) : Int :=
  let startHours := getPart startTime 0
  let startMinutes := getPart startTime 1
  let endHours := getPart endTime 0
  let endMinutes := getPart endTime 1
  let totalMinutes : Int :=
    ((endHours : Int) * 60 + (endMinutes : Int)) -
      ((startHours : Int) * 60 + (startMinutes : Int))
  if totalMinutes < 0 then totalMinutes + 24 * 60 else totalMinutes

/-- `calculateEndTime` from `client/src/lib/utils.ts`: add the duration to the
parsed start, take `Math.floor(total / 60) % 24` hours (JavaScript `%` is the
truncated remainder, `Math.floor` of the real quotient is `Int.fdiv`) and
`total % 60` minutes, and render both zero-padded. -/
def calculateEndTime (startTime : String) (durationMinutes : Int) : String :=
  let hours := getPart startTime 0
  let minutes := getPart startTime 1
  let totalMinutes : Int := (hours : Int) * 60 + (minutes : Int) + durationMinutes
  let newHours := (totalMinutes.fdiv 60).tmod 24
  let newMinutes := totalMinutes.tmod 60
  padStart2 (toString newHours) ++ ":" ++ padStart2 (toString newMinutes)

/-- `Date.getDay()` for a day index: day 0 (1970-01-01) is a Thursday, so the
day of week (0 = Sunday, 6 = Saturday) is `(d + 4) % 7`. -/
def dayOfWeek (d : Int) : Int := (d + 4) % 7

/-- Year, month (1-12) and day of month for a day index (proleptic Gregorian
calendar, the standard era-based conversion); models the calendar behind
`Date.getFullYear()` / `Date.getMonth()`. -/
def civilFromDays (z : Int) : Int × Int × Int :=
  let z' := z + 719468
  let era := z' / 146097
  let doe := z' % 146097
  let yoe := (doe - doe / 1460 + doe / 36524 - doe / 146096) / 365
  let y := yoe + era * 400
  let doy := doe - (365 * yoe + yoe / 4 - yoe / 100)
  let mp := (5 * doy + 2) / 153
  let d := doy - (153 * mp + 2) / 5 + 1
  let m := mp + (if mp < 10 then 3 else -9)
  (if m ≤ 2 then y + 1 else y, m, d)

/-- Day index of a calendar day (inverse of `civilFromDays`); models
`new Date(year, month, day)` at day granularity. -/
def daysFromCivil (y m d : Int) : Int :=
  let y' := if m ≤ 2 then y - 1 else y
  let era := y' / 400
  let yoe := y' - era * 400
  let mp := (m + 9) % 12
  let doy := (153 * mp + 2) / 5 + d - 1
  let doe := yoe * 365 + yoe / 4 - yoe / 100 + doy
  era * 146097 + doe - 719468

/-- `new Date(today.getFullYear(), today.getMonth(), 1)` as a day index. -/
def startOfMonth (d : Int) : Int :=
  let c := civilFromDays d
  daysFromCivil c.1 c.2.1 1

/-- `getDateRange` from `client/src/lib/utils.ts`, at day granularity.  The
source takes only the filter and reads `new Date()` internally; the internal
clock reading surfaces here as the explicit `today` argument of the embedding.
Returns `(startDate, endDate)`. -/
def getDateRange (today : Int) (filter : String) : Int × Int :=
  if filter = "today" then (today, today)
  else if filter = "yesterday" then (today - 1, today - 1)
  else if filter = "thisWeek" then (today - dayOfWeek today, today)
  else if filter = "lastWeek" then
    let endOfLastWeek := today - dayOfWeek today - 1
    let startOfLastWeek := endOfLastWeek - 6
    (startOfLastWeek, endOfLastWeek)
  else if filter = "thisMonth" then (startOfMonth today, today)
  else (today - 30, today)

/-- An activity record (`shared/schema.ts`): `durationMinutes` is a
non-negative integer (§3 of the data model), `projectTags` an ordered list of
tag names, not guaranteed duplicate-free. -/
structure Activity where
  id : Nat
  description : String
  date : String
  startTime : String
  endTime : Option String
  durationMinutes : Nat
  projectTags : List String
deriving DecidableEq, Repr

/-- `DatabaseStorage.getActivitiesByProjectTag` from `server/storage.ts`,
parameterized by the already-fetched full collection: keep the activities
whose `projectTags` array `includes` the tag (exact string equality). -/
def getActivitiesByProjectTag (allActivities : List Activity) (tagName : String) :
    List Activity :=
  allActivities.filter (fun a => a.projectTags.contains tagName)

/-- `reduce((sum, a) => sum + a.durationMinutes, 0)` from the summary route. -/
def totalMinutes (acts : List Activity) : Nat :=
  acts.foldl (fun sum a => sum + a.durationMinutes) 0

/-- `projectMinutes.get(tag) || 0`: look a key up in the insertion-ordered
association list, defaulting to 0 (a stored 0 and a missing key both read as
0, exactly as `undefined || 0` and `0 || 0` do). -/
def mapGetD : List (String × Nat) → String → Nat
  | [], _ => 0
  | (k', v) :: t, k => if k' == k then v else mapGetD t k

/-- `Map.set`: update an existing key in place (keeping its position, hence
the first-seen iteration order), or append a fresh key at the end. -/
def mapSet : List (String × Nat) → String → Nat → List (String × Nat)
  | [], k, v => [(k, v)]
  | (k', v') :: t, k, v =>
    if k' == k then (k', v) :: t else (k', v') :: mapSet t k v

/-- The per-tag minute totals of `/api/summary` (`server/routes.ts`): for each
activity and each tag it carries, add the activity's full duration to that
tag's entry. -/
def projectMinutes (acts : List Activity) : List (String × Nat) :=
  acts.foldl
    (fun m a =>
      a.projectTags.foldl (fun m' tag => mapSet m' tag (mapGetD m' tag + a.durationMinutes)) m)
    []

/-- The selection loop of `/api/summary`: starting from
`maxMinutes = 0, maxProject = ""`, replace the pair whenever a strictly larger
total is met. -/
def findMaxProject (m : List (String × Nat)) : String × Nat :=
  m.foldl (fun acc pv => if pv.2 > acc.2 then (pv.1, pv.2) else acc) ("", 0)

/-- The maximum per-tag total of an accumulated mapping (0 when empty); used
to state which entry the selection loop picks. -/
def maxTagTotal (m : List (String × Nat)) : Nat :=
  m.foldl (fun a x => max a x.2) 0

/-- The top-project record computed by `/api/summary`. -/
structure TopProject where
  name : String
  minutes : Nat
  percentage : Int
deriving DecidableEq, Repr

/-- The top-project block of `/api/summary`: `{name: "None", minutes: 0,
percentage: 0}` when the mapping is empty, otherwise the result of the
selection loop, with `percentage = Math.round(maxMinutes / weekMinutes * 100)`
guarded by `weekMinutes > 0`. -/
def topProjectOf (weekActivities : List Activity) : TopProject :=
  let pm := projectMinutes weekActivities
  let weekMinutes := totalMinutes weekActivities
  if pm.length > 0 then
    let mx := findMaxProject pm
    let percentage : Int :=
      if weekMinutes > 0 then jsRound ((mx.2 : ℚ) / (weekMinutes : ℚ) * 100) else 0
    ⟨mx.1, mx.2, percentage⟩
  else ⟨"None", 0, 0⟩

/-- The local `formatTime` helper of `/api/summary` (`server/routes.ts`,
lines 208-212): always `"{h}h {m}m"`, with no special case for `h == 0`. -/
def serverFormatTime (minutes : Nat) : String :=
  let hours := minutes / 60
  let mins := minutes % 60
  toString hours ++ "h " ++ toString mins ++ "m"

/-- `comparedToYesterday` from `/api/summary`:
`round((current - previous) / previous * 100)` when `previous > 0`, else 0. -/
def percentDelta (current previous : Nat) : Int :=
  if previous > 0 then
    jsRound (((current : ℚ) - (previous : ℚ)) / (previous : ℚ) * 100)
  else 0

/-- Weekly progress from `/api/summary`:
`Math.min(Math.round(weekMinutes / targetMinutes * 100), 100)`. -/
def weekProgress (weekMinutes targetMinutes : Nat) : Int :=
  min (jsRound ((weekMinutes : ℚ) / (targetMinutes : ℚ) * 100)) 100

/-- The summary view model of `/api/summary`. -/
structure DaySummary where
  totalTime : String
  totalMinutes : Nat
  comparedToYesterday : Int
deriving DecidableEq, Repr

structure WeekSummary where
  totalTime : String
  totalMinutes : Nat
  target : String
  progress : Int
deriving DecidableEq, Repr

structure TopProjectView where
  name : String
  time : String
  percentage : Int
deriving DecidableEq, Repr

structure Summary where
  today : DaySummary
  week : WeekSummary
  topProject : TopProjectView
deriving DecidableEq, Repr

/-- The pure core of the `/api/summary` route (`server/routes.ts`, lines
163-233), as a function of the three pre-fetched activity sets (today's,
yesterday's and this week's); the fixed weekly target is 1440 minutes. -/
def summaryOf (todayActs yesterdayActs weekActs : List Activity) : Summary :=
  let todayMinutes := totalMinutes todayActs
  let yesterdayMinutes := totalMinutes yesterdayActs
  let weekMinutes := totalMinutes weekActs
  let top := topProjectOf weekActs
  { today :=
      ⟨serverFormatTime todayMinutes, todayMinutes,
        percentDelta todayMinutes yesterdayMinutes⟩
    week :=
      ⟨serverFormatTime weekMinutes, weekMinutes, serverFormatTime 1440,
        weekProgress weekMinutes 1440⟩
    topProject := ⟨top.name, serverFormatTime top.minutes, top.percentage⟩ }

/-- Written after the spec's words for the refinement comparison of the
ranker's mapping (§4.5): "summed `durationMinutes` across all activities that
include that tag" — each activity that contains the tag contributes its
duration once. -/
def specTagTotal (acts : List Activity) (tag : String) : Nat :=
  ((acts.filter (fun a => a.projectTags.contains tag)).map
    (fun a => a.durationMinutes)).sum

/-- First activity of the §8 ranker scenario. -/
def scenarioA1 : Activity :=
  ⟨1, "a1", "2024-01-01", "09:00", none, 60, ["A"]⟩

/-- Second activity of the §8 ranker scenario. -/
def scenarioA2 : Activity :=
  ⟨2, "a2", "2024-01-01", "10:00", none, 30, ["A", "B"]⟩

/-- An activity carrying the same tag twice (the data model does not rule
duplicates out). -/
def duplicateTagActivity : Activity :=
  ⟨3, "dup", "2024-01-02", "09:00", none, 60, ["A", "A"]⟩

/-- A zero-duration activity with one tag (`durationMinutes` is merely
non-negative in the data model and route validation). -/
def zeroDurationActivity : Activity :=
  ⟨4, "zero", "2024-01-03", "09:00", none, 0, ["A"]⟩

/-- An activity of 30 minutes, for the formatting counterexample. -/
def halfHourActivity : Activity :=
  ⟨5, "half", "2024-01-04", "09:00", none, 30, ["A"]⟩

/-! ### Parsing facts for canonical `HH:MM` strings -/

/-- Rendering a clock time and parsing it back returns its components. -/
theorem getPart_timeString : ∀ h : Nat, h < 24 → ∀ m : Nat, m < 60 →
    getPart (timeString (h : Int) (m : Int)) 0 = h ∧
    getPart (timeString (h : Int) (m : Int)) 1 = m := by decide

/-- Evaluation of `timeDifferenceInMinutes` on canonical time strings. -/
theorem tdm_eval (sh sm eh em : Nat)
    (hsh : sh < 24) (hsm : sm < 60) (heh : eh < 24) (hem : em < 60) :
    timeDifferenceInMinutes (timeString (sh : Int) (sm : Int))
        (timeString (eh : Int) (em : Int))
      = (if ((eh : Int) * 60 + (em : Int)) - ((sh : Int) * 60 + (sm : Int)) < 0
         then ((eh : Int) * 60 + (em : Int)) - ((sh : Int) * 60 + (sm : Int)) + 1440
         else ((eh : Int) * 60 + (em : Int)) - ((sh : Int) * 60 + (sm : Int))) := by
  obtain ⟨h1, h2⟩ := getPart_timeString sh hsh sm hsm
  obtain ⟨h3, h4⟩ := getPart_timeString eh heh em hem
  simp only [timeDifferenceInMinutes, h1, h2, h3, h4]
  norm_num

/-- C4: for well-formed `HH:MM` times (rendered from `h < 24`, `m < 60`),
`timeDifferenceInMinutes` is the plain difference in minutes when
non-negative, the difference plus 1440 when the end is clock-earlier than the
start, always lies in `[0, 1439]`, and is `0` on equal times. -/
theorem timeDifferenceInMinutes_spec (sh sm eh em : Nat)
    (hsh : sh < 24) (hsm : sm < 60) (heh : eh < 24) (hem : em < 60) :
    (sh * 60 + sm ≤ eh * 60 + em →
      timeDifferenceInMinutes (timeString (sh : Int) (sm : Int))
          (timeString (eh : Int) (em : Int))
        = ((eh : Int) * 60 + (em : Int)) - ((sh : Int) * 60 + (sm : Int))) ∧
    (eh * 60 + em < sh * 60 + sm →
      timeDifferenceInMinutes (timeString (sh : Int) (sm : Int))
          (timeString (eh : Int) (em : Int))
        = ((eh : Int) * 60 + (em : Int)) - ((sh : Int) * 60 + (sm : Int)) + 1440) ∧
    0 ≤ timeDifferenceInMinutes (timeString (sh : Int) (sm : Int))
          (timeString (eh : Int) (em : Int)) ∧
    timeDifferenceInMinutes (timeString (sh : Int) (sm : Int))
          (timeString (eh : Int) (em : Int)) ≤ 1439 ∧
    timeDifferenceInMinutes (timeString (sh : Int) (sm : Int))
          (timeString (sh : Int) (sm : Int)) = 0 := by
  have he := tdm_eval sh sm eh em hsh hsm heh hem
  have hs := tdm_eval sh sm sh sm hsh hsm hsh hsm
  rw [he, hs]
  split_ifs <;> refine ⟨by omega, by omega, by omega, by omega, by omega⟩

/-- Witness for C4 at the overnight pair 23:30 → 00:15 (45 minutes). -/
theorem timeDifferenceInMinutes_witness :
    timeDifferenceInMinutes (timeString ((23 : Nat) : Int) ((30 : Nat) : Int))
        (timeString ((0 : Nat) : Int) ((15 : Nat) : Int)) = 45 := by
  have h := (timeDifferenceInMinutes_spec 23 30 0 15 (by norm_num) (by norm_num)
      (by norm_num) (by norm_num)).2.1 (by norm_num)
  rw [h]; norm_num

/-- C10: adding the wrapped difference back to the start time reproduces the
end time exactly, zero-padding included. -/
theorem calculateEndTime_roundTrip (sh sm eh em : Nat)
    (hsh : sh < 24) (hsm : sm < 60) (heh : eh < 24) (hem : em < 60) :
    calculateEndTime (timeString (sh : Int) (sm : Int))
        (timeDifferenceInMinutes (timeString (sh : Int) (sm : Int))
          (timeString (eh : Int) (em : Int)))
      = timeString (eh : Int) (em : Int) := by
  obtain ⟨h1, h2⟩ := getPart_timeString sh hsh sm hsm
  have he := tdm_eval sh sm eh em hsh hsm heh hem
  simp only [calculateEndTime, h1, h2, he]
  split_ifs with hneg
  · have ht : (sh : Int) * 60 + (sm : Int) +
        (((eh : Int) * 60 + (em : Int)) - ((sh : Int) * 60 + (sm : Int)) + 1440)
        = ((eh * 60 + em + 1440 : Nat) : Int) := by push_cast; ring
    rw [ht, show (60 : Int) = ((60 : Nat) : Int) from rfl,
      show (24 : Int) = ((24 : Nat) : Int) from rfl,
      ← Int.ofNat_fdiv, ← Int.ofNat_tmod, ← Int.ofNat_tmod,
      show (eh * 60 + em + 1440) / 60 % 24 = eh by omega,
      show (eh * 60 + em + 1440) % 60 = em by omega]
    rfl
  · have ht : (sh : Int) * 60 + (sm : Int) +
        (((eh : Int) * 60 + (em : Int)) - ((sh : Int) * 60 + (sm : Int)))
        = ((eh * 60 + em : Nat) : Int) := by push_cast; ring
    rw [ht, show (60 : Int) = ((60 : Nat) : Int) from rfl,
      show (24 : Int) = ((24 : Nat) : Int) from rfl,
      ← Int.ofNat_fdiv, ← Int.ofNat_tmod, ← Int.ofNat_tmod,
      show (eh * 60 + em) / 60 % 24 = eh by omega,
      show (eh * 60 + em) % 60 = em by omega]
    rfl

/-- Witness for C10 at 23:30 → 00:15. -/
theorem calculateEndTime_roundTrip_witness :
    calculateEndTime (timeString ((23 : Nat) : Int) ((30 : Nat) : Int))
        (timeDifferenceInMinutes (timeString ((23 : Nat) : Int) ((30 : Nat) : Int))
          (timeString ((0 : Nat) : Int) ((15 : Nat) : Int)))
      = timeString ((0 : Nat) : Int) ((15 : Nat) : Int) :=
  calculateEndTime_roundTrip 23 30 0 15 (by norm_num) (by norm_num) (by norm_num)
    (by norm_num)

/-! ### Date-range resolver -/

/-- C1: `lastWeek` resolves to the inclusive pair ending at
`today - dayOfWeek today - 1` (a Saturday, strictly before the current week)
and starting six days earlier (a Sunday); anchored at a Wednesday it is the
span `[today - 10, today - 4]`. -/
theorem getDateRange_lastWeek_spec (today : Int) :
    getDateRange today "lastWeek"
        = (today - dayOfWeek today - 7, today - dayOfWeek today - 1) ∧
    dayOfWeek (today - dayOfWeek today - 1) = 6 ∧
    dayOfWeek (today - dayOfWeek today - 7) = 0 ∧
    today - dayOfWeek today - 1 < today - dayOfWeek today ∧
    (dayOfWeek today = 3 →
      getDateRange today "lastWeek" = (today - 10, today - 4)) := by
  have h : getDateRange today "lastWeek"
      = (today - dayOfWeek today - 1 - 6, today - dayOfWeek today - 1) := rfl
  refine ⟨?_, by unfold dayOfWeek; omega, by unfold dayOfWeek; omega,
    by unfold dayOfWeek; omega, ?_⟩
  · rw [h, Prod.mk.injEq]
    exact ⟨by ring, rfl⟩
  · intro hw
    rw [h, hw, Prod.mk.injEq]
    exact ⟨by ring, by ring⟩

/-- Witness for C1 at day 19725 (Wednesday 2024-01-03): the prior
Sunday-through-Saturday span. -/
theorem getDateRange_lastWeek_witness :
    dayOfWeek 19725 = 3 ∧
    getDateRange 19725 "lastWeek" = (19725 - 10, 19725 - 4) :=
  ⟨by decide, (getDateRange_lastWeek_spec 19725).2.2.2.2 (by decide)⟩

/-- C8 counterexample: with the filter fixed, the resolver's output changes
with the internally read clock date, so the output of the source function
(whose only parameter is the filter) is not determined by its caller-supplied
inputs — the wall-clock dependence is real and internal. -/
theorem getDateRange_hidden_clock_cex :
    getDateRange 0 "today" ≠ getDateRange 1 "today" := by decide

/-- C8 (amended): `getDateRange` reads "now" from the wall clock internally
(its only source parameter is the filter); given the same internal clock date
and the same filter, two invocations return identical pairs. -/
theorem getDateRange_deterministic (today1 today2 : Int) (filter1 filter2 : String)
    (ht : today1 = today2) (hf : filter1 = filter2) :
    getDateRange today1 filter1 = getDateRange today2 filter2 := by
  rw [ht, hf]

/-- Witness for the amended C8. -/
theorem getDateRange_deterministic_witness :
    (19725 : Int) = 19725 ∧ "thisWeek" = "thisWeek" ∧
    getDateRange 19725 "thisWeek" = getDateRange 19725 "thisWeek" :=
  ⟨rfl, rfl, getDateRange_deterministic 19725 19725 "thisWeek" "thisWeek" rfl rfl⟩

/-! ### Tag-membership filter -/

/-- C9: the by-tag filter keeps exactly the activities whose `projectTags`
contain the tag (exact string equality), preserves the underlying collection
order (it is a sublist), and returns `[]` when nothing matches. -/
theorem getActivitiesByProjectTag_spec (allActivities : List Activity)
    (tagName : String) :
    (∀ a : Activity, a ∈ getActivitiesByProjectTag allActivities tagName ↔
      a ∈ allActivities ∧ tagName ∈ a.projectTags) ∧
    (getActivitiesByProjectTag allActivities tagName).Sublist allActivities ∧
    ((∀ a ∈ allActivities, tagName ∉ a.projectTags) →
      getActivitiesByProjectTag allActivities tagName = []) := by
  refine ⟨?_, List.filter_sublist _, ?_⟩
  · intro a
    simp [getActivitiesByProjectTag, List.mem_filter, List.contains,
      List.elem_iff]
  · intro h
    simp only [getActivitiesByProjectTag, List.filter_eq_nil_iff]
    intro a ha
    simp [List.contains, List.elem_iff]
    exact h a ha

/-- Witness for C9: no activity carries tag "C", so the filter is empty. -/
theorem getActivitiesByProjectTag_witness :
    (∀ a ∈ [scenarioA1, scenarioA2], "C" ∉ a.projectTags) ∧
    getActivitiesByProjectTag [scenarioA1, scenarioA2] "C" = [] :=
  ⟨by decide, (getActivitiesByProjectTag_spec [scenarioA1, scenarioA2] "C").2.2
    (by decide)⟩

/-! ### The accumulated per-tag mapping -/

/-- Reading back the key just written. -/
theorem mapGetD_mapSet_self (m : List (String × Nat)) (k : String) (v : Nat) :
    mapGetD (mapSet m k v) k = v := by
  induction m with
  | nil => simp [mapSet, mapGetD]
  | cons x t ih =>
    obtain ⟨a, b⟩ := x
    by_cases h : a = k
    · subst h; simp [mapSet, mapGetD]
    · simp [mapSet, mapGetD, h, ih]

/-- Writing one key leaves every other key unchanged. -/
theorem mapGetD_mapSet_ne (m : List (String × Nat)) (k k' : String) (v : Nat)
    (h : k ≠ k') : mapGetD (mapSet m k v) k' = mapGetD m k' := by
  induction m with
  | nil => simp [mapSet, mapGetD, h]
  | cons x t ih =>
    obtain ⟨a, b⟩ := x
    by_cases ha : a = k
    · subst ha; simp [mapSet, mapGetD, h]
    · simp [mapSet, mapGetD, ha, ih]

/-- Effect of one activity's inner tag loop on a single key: the duration is
added once per occurrence of the key in the tag list. -/
theorem mapGetD_tagFold (d : Nat) (ts : List String) (m : List (String × Nat))
    (k : String) :
    mapGetD (ts.foldl (fun m' tag => mapSet m' tag (mapGetD m' tag + d)) m) k
      = mapGetD m k + d * ts.count k := by
  induction ts generalizing m with
  | nil => simp
  | cons t ts ih =>
    simp only [List.foldl_cons, ih, List.count_cons]
    by_cases h : t = k
    · subst h
      rw [mapGetD_mapSet_self]
      simp
      ring
    · rw [mapGetD_mapSet_ne _ _ _ _ h]
      simp [h]

/-- The accumulated mapping over a whole activity list, relative to any
starting map. -/
theorem mapGetD_projectMinutes_fold (acts : List Activity) (k : String) :
    ∀ m : List (String × Nat),
      mapGetD (acts.foldl (fun m a =>
          a.projectTags.foldl
            (fun m' tag => mapSet m' tag (mapGetD m' tag + a.durationMinutes)) m) m) k
        = mapGetD m k
          + (acts.map (fun a => a.durationMinutes * a.projectTags.count k)).sum := by
  induction acts with
  | nil => simp
  | cons a t ih =>
    intro m
    simp only [List.foldl_cons, ih, List.map_cons, List.sum_cons, mapGetD_tagFold]
    ring

/-- The mapping value of a tag is the occurrence-weighted sum of durations. -/
theorem mapGetD_projectMinutes (acts : List Activity) (k : String) :
    mapGetD (projectMinutes acts) k
      = (acts.map (fun a => a.durationMinutes * a.projectTags.count k)).sum := by
  have h := mapGetD_projectMinutes_fold acts k []
  simpa [projectMinutes, mapGetD] using h

/-- When no activity repeats a tag, the occurrence-weighted sum is the spec's
"sum over activities that include the tag". -/
theorem occurrence_sum_eq_specTagTotal (acts : List Activity) (k : String)
    (h : ∀ a ∈ acts, a.projectTags.Nodup) :
    (acts.map (fun a => a.durationMinutes * a.projectTags.count k)).sum
      = specTagTotal acts k := by
  induction acts with
  | nil => simp [specTagTotal]
  | cons a t ih =>
    have ha := h a (List.mem_cons_self a t)
    have ht := fun x hx => h x (List.mem_cons_of_mem a hx)
    by_cases hm : k ∈ a.projectTags
    · have hc : a.projectTags.count k = 1 := List.count_eq_one_of_mem ha hm
      simp [specTagTotal, List.filter_cons, hm, hc, ih ht]
    · have hc : a.projectTags.count k = 0 := List.count_eq_zero.2 hm
      simp [specTagTotal, List.filter_cons, hm, hc, ih ht]

/-- C3 counterexample: an activity listing tag "A" twice with 60 minutes is
accumulated as 120 minutes for "A", while the sum over the activities whose
tags include "A" is 60 — the claim's equation fails on duplicate tags. -/
theorem projectMinutes_duplicate_tag_cex :
    mapGetD (projectMinutes [duplicateTagActivity]) "A" = 120 ∧
    specTagTotal [duplicateTagActivity] "A" = 60 ∧
    mapGetD (projectMinutes [duplicateTagActivity]) "A"
      ≠ specTagTotal [duplicateTagActivity] "A" := by decide

/-- C3 (amended): the mapping assigns each tag the sum over activities of
duration times the tag's occurrence count (each occurrence contributes the
full, unsplit duration); when no activity repeats a tag this equals the sum
over activities that include the tag; and the §8 scenario yields top project
"A" with 90 minutes and percentage 100. -/
theorem projectMinutes_occurrence_spec (acts : List Activity) (tag : String) :
    mapGetD (projectMinutes acts) tag
      = (acts.map (fun a => a.durationMinutes * a.projectTags.count tag)).sum ∧
    ((∀ a ∈ acts, a.projectTags.Nodup) →
      mapGetD (projectMinutes acts) tag = specTagTotal acts tag) ∧
    (topProjectOf [scenarioA1, scenarioA2]).name = "A" ∧
    (topProjectOf [scenarioA1, scenarioA2]).minutes = 90 ∧
    (topProjectOf [scenarioA1, scenarioA2]).percentage = 100 := by
  refine ⟨mapGetD_projectMinutes acts tag, ?_, by decide, by decide, ?_⟩
  · intro h
    rw [mapGetD_projectMinutes]
    exact occurrence_sum_eq_specTagTotal acts tag h
  · have hp : (topProjectOf [scenarioA1, scenarioA2]).percentage
        = jsRound (((90 : Nat) : ℚ) / ((90 : Nat) : ℚ) * 100) := rfl
    rw [hp]
    unfold jsRound
    push_cast
    norm_num

/-- Witness for C3 on duplicate-free activities. -/
theorem projectMinutes_occurrence_witness :
    (∀ a ∈ [scenarioA1, scenarioA2], a.projectTags.Nodup) ∧
    mapGetD (projectMinutes [scenarioA1, scenarioA2]) "A"
      = specTagTotal [scenarioA1, scenarioA2] "A" :=
  ⟨by decide,
    (projectMinutes_occurrence_spec [scenarioA1, scenarioA2] "A").2.1 (by decide)⟩

/-! ### The selection loop -/

/-- The step of the selection loop of `/api/summary`. -/
def selStep (acc pv : String × Nat) : String × Nat :=
  if pv.2 > acc.2 then (pv.1, pv.2) else acc

theorem findMaxProject_eq_foldl (m : List (String × Nat)) :
    findMaxProject m = m.foldl selStep ("", 0) := rfl

/-- The running maximum tracked by the loop. -/
theorem findMaxAux_snd (l : List (String × Nat)) :
    ∀ acc : String × Nat,
      (l.foldl selStep acc).2 = l.foldl (fun a x => max a x.2) acc.2 := by
  induction l with
  | nil => intro acc; rfl
  | cons x t ih =>
    intro acc
    simp only [List.foldl_cons, selStep]
    by_cases h : x.2 > acc.2
    · rw [if_pos h, ih]
      congr 1
      simp
      omega
    · rw [if_neg h, ih]
      congr 1
      omega

theorem foldl_max_init_le (l : List (String × Nat)) :
    ∀ a : Nat, a ≤ l.foldl (fun b x => max b x.2) a := by
  induction l with
  | nil => intro a; simp
  | cons x t ih =>
    intro a
    simp only [List.foldl_cons]
    exact le_trans (le_max_left a x.2) (ih (max a x.2))

theorem foldl_max_mem_le (l : List (String × Nat)) :
    ∀ a : Nat, ∀ x ∈ l, x.2 ≤ l.foldl (fun b x => max b x.2) a := by
  induction l with
  | nil => intro a x hx; simp at hx
  | cons y t ih =>
    intro a x hx
    simp only [List.foldl_cons]
    rcases List.mem_cons.1 hx with h | h
    · subst h; exact le_trans (le_max_right a x.2) (foldl_max_init_le t _)
    · exact ih _ x h

/-- When nothing beats the accumulator, the loop keeps it. -/
theorem findMaxAux_of_le (l : List (String × Nat)) :
    ∀ acc : String × Nat, (∀ x ∈ l, x.2 ≤ acc.2) →
      l.foldl selStep acc = acc := by
  induction l with
  | nil => intro acc _; rfl
  | cons x t ih =>
    intro acc h
    simp only [List.foldl_cons, selStep]
    rw [if_neg (by have := h x (List.mem_cons_self x t); omega)]
    exact ih acc (fun z hz => h z (List.mem_cons_of_mem x hz))

/-- When something beats the accumulator, the loop returns the first entry
achieving the final maximum. -/
theorem findMaxAux_find (l : List (String × Nat)) :
    ∀ acc : String × Nat,
      acc.2 < (l.foldl selStep acc).2 →
      l.find? (fun x => x.2 == (l.foldl selStep acc).2)
        = some (l.foldl selStep acc) := by
  induction l with
  | nil =>
    intro acc h
    simp only [List.foldl_nil] at h
    exact absurd h (lt_irrefl _)
  | cons x t ih =>
    obtain ⟨xn, xv⟩ := x
    intro acc h
    simp only [List.foldl_cons] at h ⊢
    by_cases hx : xv > acc.2
    · have hstep : selStep acc (xn, xv) = (xn, xv) := by
        simp only [selStep]
        rw [if_pos hx]
      rw [hstep] at h ⊢
      have hr2 : xv ≤ (t.foldl selStep (xn, xv)).2 := by
        rw [findMaxAux_snd]
        exact foldl_max_init_le t xv
      by_cases heq : xv = (t.foldl selStep (xn, xv)).2
      · have hall : ∀ z ∈ t, z.2 ≤ xv := by
          intro z hz
          have hzle : z.2 ≤ (t.foldl selStep (xn, xv)).2 := by
            rw [findMaxAux_snd]
            exact foldl_max_mem_le t xv z hz
          omega
        have hreq : t.foldl selStep (xn, xv) = (xn, xv) :=
          findMaxAux_of_le t (xn, xv) hall
        have hpx : ((fun z : String × Nat =>
            z.2 == (t.foldl selStep (xn, xv)).2) (xn, xv)) = true := by
          simp only [beq_iff_eq]
          exact heq
        rw [@List.find?_cons_of_pos (String × Nat)
            (fun z => z.2 == (t.foldl selStep (xn, xv)).2) (xn, xv) t hpx, hreq]
      · have hlt : xv < (t.foldl selStep (xn, xv)).2 := lt_of_le_of_ne hr2 heq
        have hpx : ¬ ((fun z : String × Nat =>
            z.2 == (t.foldl selStep (xn, xv)).2) (xn, xv)) = true := by
          simp only [beq_iff_eq]
          omega
        rw [@List.find?_cons_of_neg (String × Nat)
            (fun z => z.2 == (t.foldl selStep (xn, xv)).2) (xn, xv) t hpx]
        exact ih (xn, xv) hlt
    · have hstep : selStep acc (xn, xv) = acc := by
        simp only [selStep]
        rw [if_neg hx]
      rw [hstep] at h ⊢
      have hpx : ¬ ((fun z : String × Nat =>
          z.2 == (t.foldl selStep acc).2) (xn, xv)) = true := by
        simp only [beq_iff_eq]
        omega
      rw [@List.find?_cons_of_neg (String × Nat)
          (fun z => z.2 == (t.foldl selStep acc).2) (xn, xv) t hpx]
      exact ih acc h

/-- The loop's numeric result is the maximum per-tag total. -/
theorem findMaxProject_snd (m : List (String × Nat)) :
    (findMaxProject m).2 = maxTagTotal m := by
  rw [findMaxProject_eq_foldl, findMaxAux_snd]
  rfl

/-- With an all-zero mapping the loop never fires and returns `("", 0)`. -/
theorem findMaxProject_of_max_zero (m : List (String × Nat))
    (h : maxTagTotal m = 0) : findMaxProject m = ("", 0) := by
  rw [findMaxProject_eq_foldl]
  apply findMaxAux_of_le
  intro x hx
  have h2 : x.2 ≤ maxTagTotal m := foldl_max_mem_le m 0 x hx
  show x.2 ≤ 0
  omega

/-- With a positive maximum, the loop returns the first entry achieving it. -/
theorem findMaxProject_find (m : List (String × Nat))
    (h : 0 < maxTagTotal m) :
    m.find? (fun x => x.2 == maxTagTotal m) = some (findMaxProject m) := by
  have hs := findMaxProject_snd m
  have happ := findMaxAux_find m ("", 0) (by
    show (0 : Nat) < (m.foldl selStep ("", 0)).2
    rw [← findMaxProject_eq_foldl, hs]
    exact h)
  rw [← findMaxProject_eq_foldl, hs] at happ
  exact happ

/-- C2 counterexample: one activity of duration 0 tagged "A" produces the
mapping `[("A", 0)]` — "A" is the sole (hence first, maximal-total) tag — yet
the ranker returns name `""`, not "A": the strict `>` loop never fires on an
all-zero mapping. -/
theorem topProject_zero_total_cex :
    projectMinutes [zeroDurationActivity] = [("A", 0)] ∧
    (topProjectOf [zeroDurationActivity]).name = "" ∧
    (topProjectOf [zeroDurationActivity]).name ≠ "A" := by decide

/-- C2 (amended): with no tags at all the ranker outputs
`{name: "None", minutes: 0, percentage: 0}`; with tags but an all-zero
maximum total it outputs `{name: "", minutes: 0, percentage: 0}`; and with a
positive maximum total it selects the first entry of the first-seen-ordered
mapping that attains the maximum (first maximum found, not last). -/
theorem topProject_selection_amended (weekActs : List Activity) :
    (projectMinutes weekActs = [] →
      topProjectOf weekActs = ⟨"None", 0, 0⟩) ∧
    (projectMinutes weekActs ≠ [] → maxTagTotal (projectMinutes weekActs) = 0 →
      topProjectOf weekActs = ⟨"", 0, 0⟩) ∧
    (projectMinutes weekActs ≠ [] → 0 < maxTagTotal (projectMinutes weekActs) →
      (topProjectOf weekActs).minutes = maxTagTotal (projectMinutes weekActs) ∧
      (projectMinutes weekActs).find?
          (fun x => x.2 == maxTagTotal (projectMinutes weekActs))
        = some ((topProjectOf weekActs).name, (topProjectOf weekActs).minutes)) := by
  refine ⟨?_, ?_, ?_⟩
  · intro h
    simp [topProjectOf, h]
  · intro hne h0
    have hfm := findMaxProject_of_max_zero _ h0
    have hlen : (projectMinutes weekActs).length > 0 := by
      have := List.length_pos.2 hne
      omega
    simp only [topProjectOf, if_pos hlen, hfm]
    by_cases hw : totalMinutes weekActs > 0
    · simp only [if_pos hw, TopProject.mk.injEq]
      refine ⟨trivial, trivial, ?_⟩
      norm_num [jsRound]
    · simp only [if_neg hw]
  · intro hne h0
    have hlen : (projectMinutes weekActs).length > 0 := by
      have := List.length_pos.2 hne
      omega
    have hsnd := findMaxProject_snd (projectMinutes weekActs)
    have hf := findMaxProject_find _ h0
    constructor
    · simp only [topProjectOf, if_pos hlen]
      exact hsnd
    · simp only [topProjectOf, if_pos hlen]
      rw [hf]

/-- Witness for C2 on the §8 scenario (positive maximum total, 90). -/
theorem topProject_selection_witness :
    projectMinutes [scenarioA1, scenarioA2] ≠ [] ∧
    0 < maxTagTotal (projectMinutes [scenarioA1, scenarioA2]) ∧
    ((topProjectOf [scenarioA1, scenarioA2]).minutes
        = maxTagTotal (projectMinutes [scenarioA1, scenarioA2]) ∧
      (projectMinutes [scenarioA1, scenarioA2]).find?
          (fun x => x.2 == maxTagTotal (projectMinutes [scenarioA1, scenarioA2]))
        = some ((topProjectOf [scenarioA1, scenarioA2]).name,
            (topProjectOf [scenarioA1, scenarioA2]).minutes)) :=
  ⟨by decide, by decide,
    (topProject_selection_amended [scenarioA1, scenarioA2]).2.2 (by decide)
      (by decide)⟩

/-! ### Formatting and the summary view model -/

/-- For minute counts below one hour the two formatters disagree. -/
theorem serverFormatTime_ne_formatMinutes_below60 :
    ∀ n : Nat, n < 60 → serverFormatTime n ≠ formatMinutes n := by decide

/-- C5 counterexample: at 30 tracked minutes the summary's `totalTime` is
"0h 30m" (the route's `formatTime` has no `h == 0` case), while the
duration-formatting function `formatMinutes` renders "30m" — the summary
fields are not `formatDuration` renderings. -/
theorem summary_formatTime_cex :
    formatMinutes 30 = "30m" ∧
    serverFormatTime 30 = "0h 30m" ∧
    (summaryOf [halfHourActivity] [] []).today.totalTime = "0h 30m" ∧
    (summaryOf [halfHourActivity] [] []).today.totalTime
      ≠ formatMinutes (totalMinutes [halfHourActivity]) := by decide

/-- C5 (amended): `formatMinutes` renders `"{h}h {m}m"` with the `"{m}m"`-only
special case at `h == 0`; the summary's `totalTime` and `target` fields are
renderings by the route's own `formatTime`, which always emits `"{h}h {m}m"`;
the two renderings coincide exactly from one hour up. -/
theorem summary_formatting_amended (t y w : List Activity) (n : Nat) :
    (summaryOf t y w).today.totalTime = serverFormatTime (totalMinutes t) ∧
    (summaryOf t y w).week.totalTime = serverFormatTime (totalMinutes w) ∧
    (summaryOf t y w).week.target = serverFormatTime 1440 ∧
    (n / 60 = 0 → formatMinutes n = toString (n % 60) ++ "m") ∧
    (n / 60 ≠ 0 →
      formatMinutes n = toString (n / 60) ++ "h " ++ toString (n % 60) ++ "m") ∧
    (60 ≤ n → serverFormatTime n = formatMinutes n) ∧
    (n < 60 → serverFormatTime n ≠ formatMinutes n) := by
  refine ⟨rfl, rfl, rfl, ?_, ?_, ?_, ?_⟩
  · intro h
    simp [formatMinutes, h]
  · intro h
    simp [formatMinutes, h]
  · intro h
    have h0 : ¬ n / 60 = 0 := by omega
    simp [serverFormatTime, formatMinutes, h0]
  · exact serverFormatTime_ne_formatMinutes_below60 n

/-- Witness for C5: the two formatters disagree at 30 and agree at 90. -/
theorem summary_formatting_witness :
    (30 : Nat) < 60 ∧ serverFormatTime 30 ≠ formatMinutes 30 ∧
    60 ≤ (90 : Nat) ∧ serverFormatTime 90 = formatMinutes 90 :=
  ⟨by norm_num,
    (summary_formatting_amended [] [] [] 30).2.2.2.2.2.2 (by norm_num),
    by norm_num,
    (summary_formatting_amended [] [] [] 90).2.2.2.2.2.1 (by norm_num)⟩

/-- C6: `comparedToYesterday` is `percentDelta` of the two day totals;
`percentDelta` is the rounded percentage when the previous total is positive
and the documented 0 when it is zero — never a division failure, as witnessed
by `percentDelta 30 0 = 0`. -/
theorem comparedToYesterday_spec (t y w : List Activity) (c p : Nat) :
    (summaryOf t y w).today.comparedToYesterday
      = percentDelta (totalMinutes t) (totalMinutes y) ∧
    (0 < p →
      percentDelta c p = jsRound (((c : ℚ) - (p : ℚ)) / (p : ℚ) * 100)) ∧
    percentDelta c 0 = 0 ∧
    percentDelta 30 0 = 0 := by
  refine ⟨rfl, ?_, rfl, rfl⟩
  intro h
  simp [percentDelta, h]

/-- Witness for C6: an actual rounded percentage at `(60, 30)`. -/
theorem comparedToYesterday_witness :
    (0 : Nat) < 30 ∧
    percentDelta 60 30
      = jsRound ((((60 : Nat) : ℚ) - ((30 : Nat) : ℚ)) / ((30 : Nat) : ℚ) * 100) :=
  ⟨by norm_num, (comparedToYesterday_spec [] [] [] 60 30).2.1 (by norm_num)⟩

/-- C7: the weekly progress is `min(round(week / 1440 * 100), 100)`, lies in
`[0, 100]`, is 100 from the 1440-minute target up, and is monotone
non-decreasing in the tracked minutes. -/
theorem weekProgress_spec (t y w : List Activity) (x x' : Nat) :
    (summaryOf t y w).week.progress = weekProgress (totalMinutes w) 1440 ∧
    weekProgress x 1440 = min (jsRound ((x : ℚ) / 1440 * 100)) 100 ∧
    0 ≤ weekProgress x 1440 ∧
    weekProgress x 1440 ≤ 100 ∧
    (1440 ≤ x → weekProgress x 1440 = 100) ∧
    (x ≤ x' → weekProgress x 1440 ≤ weekProgress x' 1440) := by
  refine ⟨rfl, by norm_num [weekProgress], ?_, min_le_right _ _, ?_, ?_⟩
  · simp only [weekProgress]
    apply le_min
    · unfold jsRound
      rw [Int.le_floor]
      push_cast
      positivity
    · norm_num
  · intro h
    simp only [weekProgress]
    rw [min_eq_right]
    unfold jsRound
    rw [Int.le_floor]
    have hx : (1440 : ℚ) ≤ (x : ℚ) := by exact_mod_cast h
    push_cast
    nlinarith
  · intro h
    simp only [weekProgress]
    apply min_le_min _ le_rfl
    unfold jsRound
    apply Int.floor_mono
    have hc : (x : ℚ) ≤ (x' : ℚ) := by exact_mod_cast h
    gcongr

/-- Witness for C7 at 1500 and 2000 tracked minutes. -/
theorem weekProgress_witness :
    1440 ≤ (1500 : Nat) ∧ (1500 : Nat) ≤ 2000 ∧
    weekProgress 1500 1440 = 100 ∧
    weekProgress 1500 1440 ≤ weekProgress 2000 1440 :=
  ⟨by norm_num, by norm_num,
    (weekProgress_spec [] [] [] 1500 2000).2.2.2.2.1 (by norm_num),
    (weekProgress_spec [] [] [] 1500 2000).2.2.2.2.2 (by norm_num)⟩
